import Mathlib

/-!
Verification of the event dispatch core (`events.go` of the limetext backend).

The Go code is embedded shallowly:

* `QueryContextReturn` is the tri-state result enum (`True`/`False`/`Unknown`,
  i.e. Match / NoMatch / Unknown).
* `Op` models the comparison-operator vocabulary of the external
  `github.com/limetext/util` package (`OpEqual`, `OpNotEqual`, and the other
  regex operators the host defines); the code under verification only
  distinguishes `OpEqual`, `OpNotEqual` and "anything else".
* Go's `interface{}` operand is modelled by the closed variant type `Operand`.
  A Go `float64` payload is modelled as a rational number: every finite double
  is a rational, and the only operation the code performs on it, `int(opf)`,
  is truncation toward zero, modelled by `ratTrunc`.
* `View` carries exactly the interface the code uses: `v.Settings().Bool(name)`
  becomes the field `settings : String → Bool` and `v.Sel().Len()` becomes
  `selLen : Nat` (a Go selection count is a nonnegative `int`).
* Go callbacks are effectful (`func(v *View)`); effects are modelled by
  threading an explicit world state `σ` through each callback, so a callback
  is `View → σ → σ` and a query callback additionally returns its
  `QueryContextReturn`.  Logging calls (`log.Finest`, `log.Fine`, ...) have no
  observable effect on the data model and are dropped.
-/

/-- Go `QueryContextReturn` with its three `iota` constants: `True` (match),
`False` (no match), `Unknown` (the callback cannot deal with the context). -/
inductive QueryContextReturn : Type
| True
| False
| Unknown
deriving DecidableEq, Repr

/-- Modelled from the spec: the operator vocabulary `util.Op` of the external
util package — equality, inequality, and further host-defined operators. -/
inductive Op : Type
| OpEqual
| OpNotEqual
| OpRegexMatch
| OpNotRegexMatch
| OpRegexContains
| OpNotRegexContains
deriving DecidableEq, Repr

/-- The dynamically typed Go `interface{}` operand, as a closed variant type.
`float64` payloads are modelled as rationals (see the file header). -/
inductive Operand : Type
| float64 (x : ℚ)
| int (n : ℤ)
| str (s : String)
| bool (b : Bool)
| null
deriving DecidableEq

/-- Whether the dynamic type of the operand is exactly `float64`. -/
def Operand.isFloat64 : Operand → Bool
| .float64 _ => true
| _ => false

/-- Go comma-ok type assertion `opf, _ := operand.(float64)`: the payload when
the dynamic type is exactly `float64`, and the zero value `0` otherwise. -/
def Operand.assertFloat64 : Operand → ℚ
| .float64 x => x
| _ => 0

/-- Go conversion `int(opf)` on a (rationally modelled) `float64`: truncation
toward zero. -/
def ratTrunc (q : ℚ) : ℤ :=
Int.tdiv q.num (q.den : ℤ)

/-- Go `strings.HasPrefix(s, p)`, on the character-list model of strings
(`p` is ASCII at every use site, so byte and character boundaries agree). -/
def hasPre (s p : String) : Bool :=
p.data.isPrefixOf s.data

/-- The slice of a `*View` the event code reads: `v.Settings().Bool(name)`,
`v.Sel().Len()`, and the identifier used only for logging. -/
structure View : Type where
  id : Nat
  settings : String → Bool
  selLen : Nat

/-- Go `ViewEventCallback func(v *View)`: an effectful callback, modelled as a
transformer of an ambient world state `σ`. -/
abbrev ViewEventCallback (σ : Type) : Type := View → σ → σ

/-- Go `ViewEvent []ViewEventCallback`. -/
abbrev ViewEvent (σ : Type) : Type := List (ViewEventCallback σ)

/-- Go `func (ve *ViewEvent) Add(cb ViewEventCallback)`: append, nothing else. -/
def ViewEvent.Add {σ : Type} (ve : ViewEvent σ) (cb : ViewEventCallback σ) : ViewEvent σ :=
ve ++ [cb]

/-- Go `func (ve *ViewEvent) Call(v *View)`: invoke every registered callback
in order of registration, discarding return values (the signature has none). -/
def ViewEvent.Call {σ : Type} : ViewEvent σ → View → σ → σ
| [], _, s => s
| cb :: rest, v, s => ViewEvent.Call rest v (cb v s)

/-- Register a list of callbacks one by one with `ViewEvent.Add`, in order, as
a module initialization phase does. -/
def ViewEvent.addAll {σ : Type} (ve : ViewEvent σ) (cbs : List (ViewEventCallback σ)) : ViewEvent σ :=
cbs.foldl ViewEvent.Add ve

/-- Go `QueryContextCallback func(v *View, key string, operator util.Op,
operand interface\x7b\x7d, match_all bool) QueryContextReturn`, with the
callback's side effects modelled by threading the world state `σ`. -/
abbrev QueryContextCallback (σ : Type) : Type :=
View → String → Op → Operand → Bool → σ → σ × QueryContextReturn

/-- Go `QueryContextEvent []QueryContextCallback`. -/
abbrev QueryContextEvent (σ : Type) : Type := List (QueryContextCallback σ)

/-- Go `func (qe *QueryContextEvent) Add(cb QueryContextCallback)`: append. -/
def QueryContextEvent.Add {σ : Type} (qe : QueryContextEvent σ) (cb : QueryContextCallback σ) : QueryContextEvent σ :=
qe ++ [cb]

/-- Register a list of query callbacks one by one with `QueryContextEvent.Add`. -/
def QueryContextEvent.addAll {σ : Type} (qe : QueryContextEvent σ) (cbs : List (QueryContextCallback σ)) : QueryContextEvent σ :=
cbs.foldl QueryContextEvent.Add qe

/-- Go `func (qe QueryContextEvent) Call(...) QueryContextReturn`: walk the
registered callbacks in registration order; the first result different from
`Unknown` is returned at once; if the walk is exhausted, return `Unknown`. -/
def QueryContextEvent.Call {σ : Type} : QueryContextEvent σ → View → String → Op → Operand → Bool → σ → σ × QueryContextReturn
| [], _, _, _, _, _, s => (s, .Unknown)
| cb :: rest, v, key, operator, operand, matchAll, s =>
  match cb v key operator operand matchAll s with
  | (s', r) => if r = .Unknown then QueryContextEvent.Call rest v key operator operand matchAll s' else (s', r)

/-- A pure query handler body: the shape of the built-in handler, which reads
the view but has no world effect. -/
abbrev QueryContextFn : Type := View → String → Op → Operand → Bool → QueryContextReturn

/-- Lift a pure handler body to an effectful `QueryContextCallback`. -/
def liftPure {σ : Type} (f : QueryContextFn) : QueryContextCallback σ :=
fun v key operator operand matchAll s => (s, f v key operator operand matchAll)

/-- Instrument a pure handler body with a trace tag: the world is a log, and
each invocation appends the handler's tag to it. -/
def traced {α : Type} (t : α) (f : QueryContextFn) : QueryContextCallback (List α) :=
fun v key operator operand matchAll s => (s ++ [t], f v key operator operand matchAll)

/-- The built-in `QueryContextCallback` registered in `init()`: handles
`setting.*` keys under equality via the view's boolean settings, and the
`num_selections` key under equality and inequality via the selection count,
coercing the operand with a `float64` type assertion; everything else is
`Unknown`. -/
def builtinQueryContext : QueryContextFn :=
fun v key operator operand _ =>
  if hasPre key "setting." ∧ operator = Op.OpEqual then
    if v.settings (key.drop 8) then .True else .False
  else if key = "num_selections" then
    let opf := operand.assertFloat64
    let op := ratTrunc opf
    match operator with
    | .OpEqual => if op = (v.selLen : ℤ) then .True else .False
    | .OpNotEqual => if op ≠ (v.selLen : ℤ) then .True else .False
    | _ => .Unknown
  else .Unknown

/-- A multicast callback that only appends its tag to the world log; used to
observe invocation order. -/
def traceCb {α : Type} (t : α) : ViewEventCallback (List α) :=
fun _ s => s ++ [t]

/-- Instrument a list of multicast callbacks: callback number `i` (counting
from the given start index) also appends `i` to an invocation log carried next
to the original world state. -/
def instrumentFrom {σ : Type} (i : Nat) : List (ViewEventCallback σ) → List (ViewEventCallback (σ × List Nat))
| [] => []
| cb :: rest =>
  (fun v p => (cb v p.1, p.2 ++ [i])) :: instrumentFrom (i + 1) rest

/-- Consecutive indices `[i, i+1, ..., i+n-1]`. -/
def idxList (i : Nat) : Nat → List Nat
| 0 => []
| n + 1 => i :: idxList (i + 1) n

/-- The query registry as the dispatcher sees it: the registered handler
sequence plus the mutable world the handlers act on.  Go's
`QueryContextEvent.Call` takes the event by value and only reads `qe[i]`;
resolution therefore acts on `world` alone. -/
structure QueryRegistry (σ : Type) : Type where
  handlers : QueryContextEvent σ
  world : σ

/-- Resolve a context query against the registry: run the source's `Call` walk
over the registered handlers on the current world. -/
def QueryRegistry.resolve {σ : Type} (st : QueryRegistry σ) (v : View) (key : String) (operator : Op) (operand : Operand) (matchAll : Bool) : QueryRegistry σ × QueryContextReturn :=
let r := QueryContextEvent.Call st.handlers v key operator operand matchAll st.world
({ st with world := r.1 }, r.2)

/-- A concrete view for witnesses: the boolean setting `wrap` is `true`, every
other setting is `false`, and there are two active selections. -/
def sampleView : View :=
{ id := 1, settings := fun s => s == "wrap", selLen := 2 }

/-- Handler that always declines (H1 of the spec's short-circuit example). -/
def alwaysUnknown : QueryContextFn :=
fun _ _ _ _ _ => QueryContextReturn.Unknown

/-- Handler that always matches (H2 of the spec's short-circuit example). -/
def alwaysMatch : QueryContextFn :=
fun _ _ _ _ _ => QueryContextReturn.True

/-- Handler that never matches (H3 of the spec's short-circuit example). -/
def alwaysNoMatch : QueryContextFn :=
fun _ _ _ _ _ => QueryContextReturn.False

theorem ViewEvent.addAll_is_append {σ : Type} (ve : ViewEvent σ) (cbs : List (ViewEventCallback σ)) :
    ViewEvent.addAll ve cbs = ve ++ cbs := by
  induction cbs generalizing ve with
  | nil => simp [ViewEvent.addAll]
  | cons cb rest ih =>
      simp [ViewEvent.addAll] at ih ⊢
      rw [ih (ViewEvent.Add ve cb)]
      simp [ViewEvent.Add]

theorem QueryContextEvent.addAll_eq_append_list {σ : Type} (qe : QueryContextEvent σ) (cbs : List (QueryContextCallback σ)) :
    QueryContextEvent.addAll qe cbs = qe ++ cbs := by
  induction cbs generalizing qe with
  | nil => simp [QueryContextEvent.addAll]
  | cons cb rest ih =>
      simp [QueryContextEvent.addAll] at ih ⊢
      rw [ih (QueryContextEvent.Add qe cb)]
      simp [QueryContextEvent.Add]

theorem ViewEvent.call_append {σ : Type} (l₁ l₂ : ViewEvent σ) (v : View) (s : σ) :
    ViewEvent.Call (l₁ ++ l₂) v s = ViewEvent.Call l₂ v (ViewEvent.Call l₁ v s) := by
  induction l₁ generalizing s with
  | nil => simp [ViewEvent.Call]
  | cons cb rest ih => simp [ViewEvent.Call, ih]

theorem ViewEvent.call_traceCb {α : Type} (ts : List α) (v : View) (s : List α) :
    ViewEvent.Call (ts.map traceCb) v s = s ++ ts := by
  induction ts generalizing s with
  | nil => simp [ViewEvent.Call]
  | cons t rest ih => simp [ViewEvent.Call, traceCb, ih]

theorem hasPre_setting_ne_num_selections (key : String) (h : hasPre key "setting." = true) :
    key ≠ "num_selections" := by
  intro heq
  rw [heq] at h
  exact absurd h (by decide)

/-- C5: firing a multicast event invokes exactly the callbacks in its
sequence, each exactly once, in exactly the registration order (the
invocation log gains the indices `i, i+1, ...` in order and the world ends in
the state reached by running the callbacks sequentially), and registering a
list of callbacks on the empty event yields exactly that list, so dispatch
order equals registration order. -/
theorem viewEvent_dispatch_in_registration_order {σ : Type}
    (cbs : List (ViewEventCallback σ)) (v : View) (s : σ) (log : List Nat) (i : Nat) :
    ViewEvent.Call (ViewEvent.addAll [] (instrumentFrom i cbs)) v (s, log)
      = (ViewEvent.Call cbs v s, log ++ idxList i cbs.length)
    ∧ ViewEvent.addAll [] cbs = cbs := by
  refine ⟨?_, by simp [ViewEvent.addAll_is_append]⟩
  rw [ViewEvent.addAll_is_append, List.nil_append]
  induction cbs generalizing i s log with
  | nil => simp [instrumentFrom, ViewEvent.Call, idxList]
  | cons cb rest ih =>
      simp only [instrumentFrom, ViewEvent.Call, idxList, List.length_cons]
      rw [ih]
      simp

/-- C8: firing a multicast event with an empty callback sequence is a silent
no-op: no callback runs and the world state is returned unchanged. -/
theorem viewEvent_call_empty_noop {σ : Type} (v : View) (s : σ) :
    ViewEvent.Call ([] : ViewEvent σ) v s = s := rfl

/-- C9: registration appends with no deduplication — adding the same callback
twice yields two entries, and a subsequent firing invokes that callback twice
(the trace of an event built from tagged callbacks ends with the doubled tag
twice). -/
theorem viewEvent_double_registration {σ α : Type}
    (e : ViewEvent σ) (cb : ViewEventCallback σ) (ts : List α) (t : α) (v : View) :
    ViewEvent.Add (ViewEvent.Add e cb) cb = e ++ [cb, cb]
    ∧ ViewEvent.Call
        (ViewEvent.Add (ViewEvent.Add (ViewEvent.addAll [] (ts.map traceCb)) (traceCb t)) (traceCb t))
        v [] = ts ++ [t, t] := by
  constructor
  · simp [ViewEvent.Add]
  · rw [ViewEvent.addAll_is_append, List.nil_append]
    simp only [ViewEvent.Add, List.append_assoc, List.singleton_append]
    rw [ViewEvent.call_append]
    simp [ViewEvent.call_traceCb, ViewEvent.Call, traceCb]

/-- C10: resolving a context query reads the registered handler sequence and
acts only on the world; the registry's handler sequence after a resolution is
identical to the sequence before it. -/
theorem queryRegistry_resolve_preserves_handlers {σ : Type}
    (st : QueryRegistry σ) (v : View) (key : String) (operator : Op) (operand : Operand) (matchAll : Bool) :
    ((QueryRegistry.resolve st v key operator operand matchAll).1).handlers = st.handlers := rfl

/-- C4: if every registered handler returns `Unknown` on an argument tuple
(whatever world state it is invoked in, and including the case of zero
registered handlers), resolving the query returns the result value `Unknown`. -/
theorem queryContext_all_unknown {σ : Type} (qe : QueryContextEvent σ)
    (v : View) (key : String) (operator : Op) (operand : Operand) (matchAll : Bool) (s : σ)
    (h : ∀ cb ∈ qe, ∀ w, (cb v key operator operand matchAll w).2 = QueryContextReturn.Unknown) :
    (QueryContextEvent.Call qe v key operator operand matchAll s).2 = QueryContextReturn.Unknown := by
  induction qe generalizing s with
  | nil => rfl
  | cons cb rest ih =>
      have hcb := h cb (List.mem_cons_self _ _) s
      simp only [QueryContextEvent.Call]
      rcases hc : cb v key operator operand matchAll s with ⟨s', r⟩
      rw [hc] at hcb
      simp only at hcb
      simp only [hcb, if_pos]
      exact ih _ (fun cb' hm w => h cb' (List.mem_cons_of_mem _ hm) w)

theorem queryContext_all_unknown_witness :
    (QueryContextEvent.Call [liftPure alwaysUnknown] sampleView "k" Op.OpEqual Operand.null false (0 : Nat)).2
      = QueryContextReturn.Unknown :=
  queryContext_all_unknown [liftPure alwaysUnknown] sampleView "k" Op.OpEqual Operand.null false 0
    (by intro cb hm w; simp at hm; subst hm; rfl)

/-- C1: resolving a context query consults the registered handlers in
registration order and returns the result of the first handler that answers
decisively, never invoking a handler registered after it (the trace contains
only the tags up to and including the deciding handler); in particular the
handlers H1 (always Unknown), H2 (always Match), H3 (always NoMatch)
registered in that order resolve to Match with H3 never invoked, and in the
order H3, H1, H2 they resolve to NoMatch. -/
theorem queryContext_first_decisive_wins {α : Type}
    (pre post : List (α × QueryContextFn)) (t : α) (f : QueryContextFn)
    (v : View) (key : String) (operator : Op) (operand : Operand) (matchAll : Bool) (s : List α)
    (hpre : ∀ p ∈ pre, p.2 v key operator operand matchAll = QueryContextReturn.Unknown)
    (hf : f v key operator operand matchAll ≠ QueryContextReturn.Unknown) :
    QueryContextEvent.Call
        (QueryContextEvent.addAll [] ((pre ++ (t, f) :: post).map fun p => traced p.1 p.2))
        v key operator operand matchAll s
      = (s ++ pre.map Prod.fst ++ [t], f v key operator operand matchAll)
    ∧ (∀ s₀ : List String,
        QueryContextEvent.Call
          (QueryContextEvent.addAll []
            [traced "H1" alwaysUnknown, traced "H2" alwaysMatch, traced "H3" alwaysNoMatch])
          v key operator operand matchAll s₀
        = (s₀ ++ ["H1", "H2"], QueryContextReturn.True))
    ∧ (∀ s₀ : List String,
        QueryContextEvent.Call
          (QueryContextEvent.addAll []
            [traced "H3" alwaysNoMatch, traced "H1" alwaysUnknown, traced "H2" alwaysMatch])
          v key operator operand matchAll s₀
        = (s₀ ++ ["H3"], QueryContextReturn.False)) := by
  refine ⟨?_, ?_, ?_⟩
  · rw [QueryContextEvent.addAll_eq_append_list, List.nil_append]
    induction pre generalizing s with
    | nil =>
        simp only [List.nil_append, List.map_cons, QueryContextEvent.Call, traced]
        rw [if_neg hf]
        simp
    | cons p pre ih =>
        simp only [List.cons_append, List.map_cons, QueryContextEvent.Call, traced]
        rw [if_pos (hpre p (List.mem_cons_self _ _))]
        simp only [List.append_eq]
        rw [ih _ (fun q hq => hpre q (List.mem_cons_of_mem _ hq))]
        simp
  · intro s₀
    rw [QueryContextEvent.addAll_eq_append_list, List.nil_append]
    simp [QueryContextEvent.Call, traced, alwaysUnknown, alwaysMatch, alwaysNoMatch]
  · intro s₀
    rw [QueryContextEvent.addAll_eq_append_list, List.nil_append]
    simp [QueryContextEvent.Call, traced, alwaysUnknown, alwaysMatch, alwaysNoMatch]

theorem queryContext_first_decisive_wins_witness :
    QueryContextEvent.Call
        (QueryContextEvent.addAll []
          (([(("a" : String), alwaysUnknown)] ++ ("b", alwaysMatch) :: [("c", alwaysNoMatch)]).map
            fun p => traced p.1 p.2))
        sampleView "k" Op.OpEqual Operand.null false []
      = ([] ++ [(("a" : String), alwaysUnknown)].map Prod.fst ++ ["b"],
         alwaysMatch sampleView "k" Op.OpEqual Operand.null false) :=
  (queryContext_first_decisive_wins [(("a" : String), alwaysUnknown)] [("c", alwaysNoMatch)]
      "b" alwaysMatch sampleView "k" Op.OpEqual Operand.null false []
      (by intro p hp; simp at hp; subst hp; rfl)
      (by decide)).1

/-- C2: for a key with the literal `setting.` head and the equality operator,
the built-in handler returns Match exactly when the boolean setting named by
the remainder of the key on the subject view is true and NoMatch when it is
false; any operator other than equality on such a key returns Unknown. -/
theorem builtin_setting_equality (v : View) (key : String) (operand : Operand) (matchAll : Bool)
    (h : hasPre key "setting." = true) :
    (v.settings (key.drop 8) = true →
       builtinQueryContext v key Op.OpEqual operand matchAll = QueryContextReturn.True)
    ∧ (v.settings (key.drop 8) = false →
       builtinQueryContext v key Op.OpEqual operand matchAll = QueryContextReturn.False)
    ∧ (∀ operator : Op, operator ≠ Op.OpEqual →
       builtinQueryContext v key operator operand matchAll = QueryContextReturn.Unknown) := by
  have hkey : key ≠ "num_selections" := hasPre_setting_ne_num_selections key h
  refine ⟨?_, ?_, ?_⟩
  · intro hs; simp [builtinQueryContext, h, hs]
  · intro hs; simp [builtinQueryContext, h, hs]
  · intro operator hop
    simp [builtinQueryContext, h, hop, hkey]

theorem builtin_setting_equality_witness :
    hasPre "setting.wrap" "setting." = true
    ∧ ((sampleView.settings ("setting.wrap".drop 8) = true →
          builtinQueryContext sampleView "setting.wrap" Op.OpEqual Operand.null false
            = QueryContextReturn.True)
      ∧ (sampleView.settings ("setting.wrap".drop 8) = false →
          builtinQueryContext sampleView "setting.wrap" Op.OpEqual Operand.null false
            = QueryContextReturn.False)
      ∧ (∀ operator : Op, operator ≠ Op.OpEqual →
          builtinQueryContext sampleView "setting.wrap" operator Operand.null false
            = QueryContextReturn.Unknown)) :=
  ⟨by decide, builtin_setting_equality sampleView "setting.wrap" Operand.null false (by decide)⟩

/-- C3: for the key `num_selections` the built-in handler coerces the operand
to an integer and compares it with the view's selection count — equality
returns Match exactly when they are equal, inequality exactly when they
differ, any other operator returns Unknown — and any key that neither starts
with `setting.` nor equals `num_selections` returns Unknown. -/
theorem builtin_num_selections_semantics (v : View) (operand : Operand) (matchAll : Bool) :
    (builtinQueryContext v "num_selections" Op.OpEqual operand matchAll
       = if ratTrunc operand.assertFloat64 = (v.selLen : ℤ) then QueryContextReturn.True
         else QueryContextReturn.False)
    ∧ (builtinQueryContext v "num_selections" Op.OpNotEqual operand matchAll
       = if ratTrunc operand.assertFloat64 ≠ (v.selLen : ℤ) then QueryContextReturn.True
         else QueryContextReturn.False)
    ∧ (∀ operator : Op, operator ≠ Op.OpEqual → operator ≠ Op.OpNotEqual →
        builtinQueryContext v "num_selections" operator operand matchAll = QueryContextReturn.Unknown)
    ∧ (∀ (key : String) (operator : Op),
        hasPre key "setting." = false → key ≠ "num_selections" →
        builtinQueryContext v key operator operand matchAll = QueryContextReturn.Unknown) := by
  have hns : hasPre "num_selections" "setting." = false := by decide
  refine ⟨?_, ?_, ?_, ?_⟩
  · simp [builtinQueryContext, hns]
  · simp [builtinQueryContext, hns]
  · intro operator h1 h2
    cases operator <;> simp_all [builtinQueryContext, hns]
  · intro key operator hk hkey
    simp [builtinQueryContext, hk, hkey]

theorem builtin_num_selections_semantics_witness :
    (builtinQueryContext sampleView "num_selections" Op.OpEqual (Operand.float64 2) false
       = if ratTrunc (Operand.float64 2).assertFloat64 = (sampleView.selLen : ℤ)
         then QueryContextReturn.True else QueryContextReturn.False)
    ∧ (builtinQueryContext sampleView "num_selections" Op.OpNotEqual (Operand.float64 2) false
       = if ratTrunc (Operand.float64 2).assertFloat64 ≠ (sampleView.selLen : ℤ)
         then QueryContextReturn.True else QueryContextReturn.False)
    ∧ (∀ operator : Op, operator ≠ Op.OpEqual → operator ≠ Op.OpNotEqual →
        builtinQueryContext sampleView "num_selections" operator (Operand.float64 2) false
          = QueryContextReturn.Unknown)
    ∧ (∀ (key : String) (operator : Op),
        hasPre key "setting." = false → key ≠ "num_selections" →
        builtinQueryContext sampleView key operator (Operand.float64 2) false
          = QueryContextReturn.Unknown) :=
  builtin_num_selections_semantics sampleView (Operand.float64 2) false

/-- C6: in the `num_selections` branch a non-`float64` operand is silently
coerced to `0` rather than rejected — the handler behaves exactly as it would
on the operand `0.0`, and with the equality operator the comparison proceeds
against the zero value. -/
theorem builtin_nonnumeric_operand_zero (v : View) (matchAll : Bool) (operand : Operand) (operator : Op)
    (h : operand.isFloat64 = false) :
    operand.assertFloat64 = 0
    ∧ builtinQueryContext v "num_selections" operator operand matchAll
        = builtinQueryContext v "num_selections" operator (Operand.float64 0) matchAll
    ∧ builtinQueryContext v "num_selections" Op.OpEqual operand matchAll
        = (if (0 : ℤ) = (v.selLen : ℤ) then QueryContextReturn.True else QueryContextReturn.False) := by
  have h0 : operand.assertFloat64 = 0 := by
    cases operand with
    | float64 x => simp [Operand.isFloat64] at h
    | int n => rfl
    | str s => rfl
    | bool b => rfl
    | null => rfl
  have hns : hasPre "num_selections" "setting." = false := by decide
  have ht : ratTrunc (0 : ℚ) = 0 := by norm_num [ratTrunc]
  refine ⟨h0, ?_, ?_⟩
  · simp [builtinQueryContext, h0, show (Operand.float64 (0 : ℚ)).assertFloat64 = 0 from rfl]
  · simp [builtinQueryContext, hns, h0, ht]

theorem builtin_nonnumeric_operand_zero_witness :
    Operand.isFloat64 (Operand.str "two") = false
    ∧ ((Operand.str "two").assertFloat64 = 0
      ∧ builtinQueryContext sampleView "num_selections" Op.OpEqual (Operand.str "two") false
          = builtinQueryContext sampleView "num_selections" Op.OpEqual (Operand.float64 0) false
      ∧ builtinQueryContext sampleView "num_selections" Op.OpEqual (Operand.str "two") false
          = (if (0 : ℤ) = (sampleView.selLen : ℤ) then QueryContextReturn.True
             else QueryContextReturn.False)) :=
  ⟨by decide, builtin_nonnumeric_operand_zero sampleView false (Operand.str "two") Op.OpEqual (by decide)⟩

/-- C7: only an operand whose dynamic type is exactly `float64` passes the
coercion — every other constructor (including an integer-typed numeric value)
coerces to `0` — and a fractional value is truncated toward zero before the
comparison with the selection count (`2.9` compares as `2`, and the
integer-typed operand `2` compares as `0`). -/
theorem operand_coercion_float64_only (v : View) (matchAll : Bool)
    (q : ℚ) (n : ℤ) (b : Bool) (s : String) :
    Operand.assertFloat64 (Operand.float64 q) = q
    ∧ Operand.assertFloat64 (Operand.int n) = 0
    ∧ Operand.assertFloat64 (Operand.str s) = 0
    ∧ Operand.assertFloat64 (Operand.bool b) = 0
    ∧ Operand.assertFloat64 Operand.null = 0
    ∧ ratTrunc (29 / 10 : ℚ) = 2
    ∧ ratTrunc (-(29 / 10) : ℚ) = -2
    ∧ builtinQueryContext v "num_selections" Op.OpEqual (Operand.float64 (29 / 10)) matchAll
        = (if (2 : ℤ) = (v.selLen : ℤ) then QueryContextReturn.True else QueryContextReturn.False)
    ∧ builtinQueryContext v "num_selections" Op.OpEqual (Operand.int 2) matchAll
        = (if (0 : ℤ) = (v.selLen : ℤ) then QueryContextReturn.True else QueryContextReturn.False) := by
  have hns : hasPre "num_selections" "setting." = false := by decide
  have h29 : ratTrunc (29 / 10 : ℚ) = 2 := by
    norm_num [ratTrunc]
    decide
  have hneg : ratTrunc (-(29 / 10) : ℚ) = -2 := by
    norm_num [ratTrunc]
    decide
  have h0 : ratTrunc (0 : ℚ) = 0 := by norm_num [ratTrunc]
  refine ⟨rfl, rfl, rfl, rfl, rfl, h29, hneg, ?_, ?_⟩
  · simp [builtinQueryContext, hns, Operand.assertFloat64, h29]
  · simp [builtinQueryContext, hns, Operand.assertFloat64, h0]
